import Mathlib

/-!
Verification development for the news-platform backend (NestJS + Prisma).

The definitions below are a shallow embedding of the repository code:

* `src/backend/src/modules/auth/dto/signup.dto.ts` (role normalization and
  the allowed-role check),
* `src/backend/src/modules/auth/auth.service.ts` (signup and login),
* `src/backend/src/modules/articles/repositories/articles.repository.ts`
  (findById, findByAuthor, update, softDelete),
* the `ArticlesRepository.findPublished` variant (public feed with filters
  and pagination, `src/unnamed/part_004`),
* the `ArticlesService` (findOne / update / remove ownership-gated CRUD,
  embedded in `src/backend/src/modules/articles/dto/update-article.dto.ts`
  after the separator).

The relational store is modelled as explicit lists of rows; Prisma calls
become list lookups, and thrown Nest exceptions become error values carrying
the HTTP status and the structured response body that the code constructs.
External libraries (bcrypt, JWT signing) are modelled as pure functions; the
bcrypt model keeps the one property the code relies on: hashing is injective
on the password, comparison succeeds exactly on the matching password, and
the hash differs from the plaintext.
-/

namespace NewsPlatform

/-- UserRole from the generated Prisma enums used by
`src/backend/src/modules/auth/auth.service.ts` (variants AUTHOR and READER). -/
inductive UserRole where
  | AUTHOR
  | READER
deriving DecidableEq, Repr

/-- ArticleStatus from the generated Prisma enums (variants Draft and
Published), as used by the articles repository. -/
inductive ArticleStatus where
  | Draft
  | Published
deriving DecidableEq, Repr

/-- Row of the User table (Prisma model User). -/
structure User where
  id : String
  name : String
  email : String
  password : String
  role : UserRole
deriving DecidableEq, Repr

/-- Row of the Article table (Prisma model Article). `createdAt` is an
abstract timestamp; `deletedAt` is the nullable soft-delete marker. -/
structure Article where
  id : String
  title : String
  content : String
  category : String
  status : ArticleStatus
  authorId : String
  createdAt : Nat
  deletedAt : Option Nat
deriving DecidableEq, Repr

/-- The relational store: the two tables the embedded code touches. -/
structure Store where
  users : List User
  articles : List Article
deriving DecidableEq, Repr

/-- Model of the external bcrypt hash function. The repository only ever
hashes with `BCRYPT_SALT_ROUNDS = 12` (auth.service.ts line 30). The model
keeps the properties the code relies on: the result is determined by the
password, is distinguishable from the plaintext, and can be verified. -/
def bcryptHash (password : String) (rounds : Nat) : String :=
  "$2b$" ++ toString rounds ++ "$" ++ password

/-- Model of the external bcrypt compare function: succeeds exactly when the
hash was produced from this password (the service always uses 12 rounds). -/
def bcryptCompare (password hash : String) : Bool :=
  hash == bcryptHash password 12

/-- Model of the external JWT signing function used by login
(`jwtService.signAsync` with payload sub and role); signing is modelled as a
total injective function of the two claims. -/
def jwtSign (sub : String) (role : String) : String :=
  "jwt." ++ sub ++ "." ++ role

/-! ## Signup DTO (src/backend/src/modules/auth/dto/signup.dto.ts) -/

/-- Whitespace characters stripped by the JS string trim method (the common
ASCII ones; the sources only ever trim over these). -/
def isJsWhitespace (c : Char) : Bool :=
  c = ' ' || c = '\t' || c = '\n' || c = '\r'

/-- Model of the JS string trim method: strip whitespace from both ends. -/
def jsTrim (s : String) : String :=
  String.mk
    (((s.data.dropWhile isJsWhitespace).reverse.dropWhile isJsWhitespace).reverse)

/-- normalizeRole from signup.dto.ts lines 35-43: trim, then capitalize the
first letter and lowercase the rest (to match the enum casing). -/
def normalizeRole (value : String) : String :=
  let trimmed := jsTrim value
  match trimmed.data with
  | [] => ""
  | c :: rest => String.mk (c.toUpper :: rest.map Char.toLower)

/-- ALLOWED_ROLES from signup.dto.ts line 15. -/
def ALLOWED_ROLES : List String := ["Author", "Reader"]

/-- Validation of the role field: the `@Transform(normalizeRole)` runs first,
then `@IsIn(ALLOWED_ROLES)` checks membership. Accepted payloads carry the
normalized role. -/
def signupRoleAccepted (rawRole : String) : Bool :=
  ALLOWED_ROLES.contains (normalizeRole rawRole)

/-! ## Auth service (src/backend/src/modules/auth/auth.service.ts) -/

/-- Error body shape of the auth module (auth.types ErrorResponse: a Success
flag and a list of error strings). -/
structure AuthErrorResponse where
  Success : Bool
  Errors : List String
deriving DecidableEq, Repr

/-- A thrown Nest exception: HTTP status plus the structured response body. -/
structure HttpError where
  status : Nat
  body : AuthErrorResponse
deriving DecidableEq, Repr

/-- Outcome of an auth service call: the success payload or the thrown
exception. -/
inductive AuthResult (α : Type) where
  | ok (value : α)
  | err (e : HttpError)
deriving DecidableEq, Repr

/-- buildEmailConflictException (auth.service.ts lines 101-106): a 409
ConflictException with the EMAIL_ALREADY_EXISTS_ERROR body. -/
def emailConflictError : HttpError :=
  ⟨409, ⟨false, ["Email already exists."]⟩⟩

/-- buildInvalidCredentialsException (auth.service.ts lines 162-167): a 401
UnauthorizedException with the single generic INVALID_CREDENTIALS_ERROR. -/
def invalidCredentialsError : HttpError :=
  ⟨401, ⟨false, ["Invalid email or password."]⟩⟩

/-- The 500 InternalServerErrorException thrown for unexpected persistence
failures during signup (auth.service.ts lines 94-97). -/
def signupInternalError : HttpError :=
  ⟨500, ⟨false, ["Unable to create account at the moment. Please try again later."]⟩⟩

/-- mapSignupRoleToPrismaRole (auth.service.ts lines 169-171): compares the
DTO role against the lowercase literal. -/
def mapSignupRoleToPrismaRole (role : String) : UserRole :=
  if role == "author" then UserRole.AUTHOR else UserRole.READER

/-- mapPrismaRoleToApiRole (auth.service.ts lines 173-175). -/
def mapPrismaRoleToApiRole (role : UserRole) : String :=
  if role = UserRole.AUTHOR then "author" else "reader"

/-- Stored role of a signup whose raw role field passed DTO validation: the
DTO transform normalizes the raw value, and the service maps the normalized
value to the Prisma enum before persisting. -/
def signupStoredRole (rawRole : String) : UserRole :=
  mapSignupRoleToPrismaRole (normalizeRole rawRole)

/-- prisma.user.findUnique on the unique email column. -/
def findUserByEmail (s : Store) (email : String) : Option User :=
  s.users.find? (fun u => decide (u.email = email))

/-- Validated signup payload as the service receives it (after DTO
transforms; role is the normalized value that passed IsIn). -/
structure SignupData where
  name : String
  email : String
  password : String
  role : String
deriving DecidableEq, Repr

/-- SignupResponseData (auth.types): the public fields returned on success.
The shape has no password field. -/
structure SignupOk where
  id : String
  name : String
  email : String
  role : String
deriving DecidableEq, Repr

/-- LoginResponseData: the signed access token. -/
structure LoginOk where
  accessToken : String
deriving DecidableEq, Repr

/-- An error surfaced by the persistence layer; Prisma known errors carry a
string code (unique-constraint violations use code P2002). -/
structure DbError where
  code : Option String
deriving DecidableEq, Repr

/-- isUniqueConstraintViolation (auth.service.ts lines 157-160). -/
def AuthService.isUniqueConstraintViolation (e : DbError) : Bool :=
  e.code == some "P2002"

/-- Store-level prisma.user.create. The insert enforces the unique email
constraint: if a row with the email already exists it fails with code P2002.
`newId` is the id the store generates for the row; `externalFailure` injects
a persistence failure from outside the model (for example a lost
connection), which the real store can raise for any insert. -/
def dbCreateUser (s : Store) (newId : String) (name email passwordHash : String)
    (role : UserRole) (externalFailure : Option DbError) :
    Except DbError (User × Store) :=
  match externalFailure with
  | some e => .error e
  | none =>
    if s.users.any (fun u => decide (u.email = email)) then
      .error ⟨some "P2002"⟩
    else
      let u : User := ⟨newId, name, email, passwordHash, role⟩
      .ok (u, { s with users := s.users ++ [u] })

/-- AuthService.signup (auth.service.ts lines 38-99). `sCheck` is the store
state read by the pre-insert findUnique existence check and `sInsert` the
state the insert runs against; they coincide unless a concurrent signup
lands between the two calls. Returns the response together with the
resulting store (unchanged on failure). -/
def AuthService.signup (sCheck sInsert : Store) (newId : String)
    (externalFailure : Option DbError) (payload : SignupData) :
    AuthResult SignupOk × Store :=
  if (findUserByEmail sCheck payload.email).isSome then
    (.err emailConflictError, sInsert)
  else
    let passwordHash := bcryptHash payload.password 12
    match dbCreateUser sInsert newId payload.name payload.email passwordHash
        (mapSignupRoleToPrismaRole payload.role) externalFailure with
    | .ok (u, s') =>
      (.ok ⟨u.id, u.name, u.email, mapPrismaRoleToApiRole u.role⟩, s')
    | .error e =>
      if AuthService.isUniqueConstraintViolation e then
        (.err emailConflictError, sInsert)
      else
        (.err signupInternalError, sInsert)

/-- AuthService.login (auth.service.ts lines 108-155): look up by email;
missing user or failed hash comparison both throw the generic
invalid-credentials exception; otherwise sign a token over the user id and
API role. -/
def AuthService.login (s : Store) (email password : String) :
    AuthResult LoginOk :=
  match findUserByEmail s email with
  | none => .err invalidCredentialsError
  | some user =>
    if !(bcryptCompare password user.password) then
      .err invalidCredentialsError
    else
      .ok ⟨jwtSign user.id (mapPrismaRoleToApiRole user.role)⟩

/-! ## Articles repository
(src/backend/src/modules/articles/repositories/articles.repository.ts and
the feed variant in src/unnamed/part_004) -/

/-- Author fields selected by the `include` of ArticlesRepository.findById
(id, name, email, role — email included). -/
structure AuthorFull where
  id : String
  name : String
  email : String
  role : UserRole
deriving DecidableEq, Repr

/-- Author fields selected by the `include` of
ArticlesRepository.findPublished (id, name, role — email excluded via
`email: false`). -/
structure AuthorPublic where
  id : String
  name : String
  role : UserRole
deriving DecidableEq, Repr

/-- Article row joined with the owner-facing author selection. -/
structure ArticleWithAuthorFull where
  article : Article
  author : Option AuthorFull
deriving DecidableEq, Repr

/-- Feed item: article row joined with the public author selection. -/
structure FeedItem where
  article : Article
  author : Option AuthorPublic
deriving DecidableEq, Repr

/-- Relational join for the owner-facing author include. -/
def authorFullOf (s : Store) (authorId : String) : Option AuthorFull :=
  (s.users.find? (fun u => decide (u.id = authorId))).map
    (fun u => ⟨u.id, u.name, u.email, u.role⟩)

/-- Relational join for the public-feed author include (no email). -/
def authorPublicOf (s : Store) (authorId : String) : Option AuthorPublic :=
  (s.users.find? (fun u => decide (u.id = authorId))).map
    (fun u => ⟨u.id, u.name, u.role⟩)

/-- UpdateArticleData (articles.repository.ts lines 14-19): the only columns
the repository update can touch; absent fields are left unchanged by Prisma. -/
structure UpdateArticleData where
  title : Option String := none
  content : Option String := none
  category : Option String := none
  status : Option ArticleStatus := none
deriving DecidableEq, Repr

/-- Options of ArticlesRepository.findById. -/
structure FindByIdOptions where
  authorId : Option String := none
  includeDeleted : Bool := false
deriving DecidableEq, Repr

/-- Options of ArticlesRepository.findPublished (src/unnamed/part_004 lines
111-117). -/
structure FindPublishedArticlesOptions where
  category : Option String := none
  author : Option String := none
  search : Option String := none
  page : Nat
  size : Nat
deriving DecidableEq, Repr

/-- PaginatedResult shape returned by findPublished. -/
structure PaginatedResult (α : Type) where
  items : List α
  total : Nat
  page : Nat
  size : Nat
  totalPages : Nat
deriving DecidableEq, Repr

/-- Insert a row into a list kept in createdAt-descending order. -/
def insertByCreatedAtDesc (a : Article) : List Article → List Article
  | [] => [a]
  | b :: rest =>
    if b.createdAt ≤ a.createdAt then a :: b :: rest
    else b :: insertByCreatedAtDesc a rest

/-- Model of the `orderBy createdAt desc` clause used by findByAuthor and
findPublished: sort rows by createdAt, newest first. -/
def sortByCreatedAtDesc : List Article → List Article
  | [] => []
  | a :: rest => insertByCreatedAtDesc a (sortByCreatedAtDesc rest)

/-- Contiguous-substring test on character lists. -/
def listHasInfix (needle : List Char) : List Char → Bool
  | [] => needle.isEmpty
  | c :: rest => needle.isPrefixOf (c :: rest) || listHasInfix needle rest

/-- Model of the Prisma `contains` filter with `mode: insensitive`:
case-folded substring containment. -/
def containsInsensitive (hay needle : String) : Bool :=
  listHasInfix (needle.data.map Char.toLower) (hay.data.map Char.toLower)

/-- Truthiness of an optional string filter in the JS sources: a filter
participates in the where clause only when present and nonempty. -/
def strFilterActive : Option String → Bool
  | none => false
  | some s => !s.isEmpty

/-- Where clause of ArticlesRepository.findById: the id always, the author
filter when truthy, and `deletedAt: null` unless includeDeleted. -/
def findByIdPred (id : String) (opts : FindByIdOptions) (a : Article) : Bool :=
  decide (a.id = id)
  && (if strFilterActive opts.authorId then
        decide (some a.authorId = opts.authorId)
      else true)
  && (opts.includeDeleted || a.deletedAt.isNone)

/-- ArticlesRepository.findById (articles.repository.ts lines 49-78):
findUnique over the where clause, including the owner-facing author
selection. -/
def ArticlesRepository.findById (s : Store) (id : String)
    (opts : FindByIdOptions) : Option ArticleWithAuthorFull :=
  (s.articles.find? (findByIdPred id opts)).map
    (fun a => ⟨a, authorFullOf s a.authorId⟩)

/-- ArticlesRepository.findByAuthor (articles.repository.ts lines 84-98):
rows of the author, excluding soft-deleted rows unless includeDeleted,
ordered by createdAt descending. -/
def ArticlesRepository.findByAuthor (s : Store) (authorId : String)
    (includeDeleted : Bool := false) : List Article :=
  sortByCreatedAtDesc
    (s.articles.filter
      (fun a => decide (a.authorId = authorId)
        && (includeDeleted || a.deletedAt.isNone)))

/-- Field-wise application of an UpdateArticleData to a row: Prisma sets the
provided columns and leaves every other column of the row unchanged. -/
def applyUpdate (d : UpdateArticleData) (a : Article) : Article :=
  { a with
    title := d.title.getD a.title
    content := d.content.getD a.content
    category := d.category.getD a.category
    status := d.status.getD a.status }

/-- ArticlesRepository.update (articles.repository.ts lines 103-108):
`update where id` sets the provided columns of the matching row; a missing
row raises the Prisma record-not-found error (code P2025). -/
def ArticlesRepository.update (s : Store) (id : String)
    (d : UpdateArticleData) : Except DbError (Article × Store) :=
  match s.articles.find? (fun a => decide (a.id = id)) with
  | none => .error ⟨some "P2025"⟩
  | some a =>
    .ok (applyUpdate d a,
      { s with articles :=
          s.articles.map (fun b => if b.id = id then applyUpdate d b else b) })

/-- ArticlesRepository.softDelete (articles.repository.ts lines 113-118):
`update where id` setting `deletedAt` to the current time. -/
def ArticlesRepository.softDelete (s : Store) (id : String) (now : Nat) :
    Except DbError (Article × Store) :=
  match s.articles.find? (fun a => decide (a.id = id)) with
  | none => .error ⟨some "P2025"⟩
  | some a =>
    .ok ({ a with deletedAt := some now },
      { s with articles := s.articles.map (fun b =>
          if b.id = id then { b with deletedAt := some now } else b) })

/-- Where clause of ArticlesRepository.findPublished (src/unnamed/part_004
lines 257-286): published and non-deleted always; exact category match,
case-insensitive partial author-name match, and case-insensitive partial
title search, each only when the filter string is truthy. -/
def findPublishedPred (s : Store) (opts : FindPublishedArticlesOptions)
    (a : Article) : Bool :=
  decide (a.status = ArticleStatus.Published)
  && a.deletedAt.isNone
  && (if strFilterActive opts.category then
        decide (some a.category = opts.category)
      else true)
  && (match opts.author with
      | none => true
      | some f =>
        if f.isEmpty then true
        else
          match s.users.find? (fun u => decide (u.id = a.authorId)) with
          | some u => containsInsensitive u.name f
          | none => false)
  && (match opts.search with
      | none => true
      | some q =>
        if q.isEmpty then true
        else containsInsensitive a.title q)

/-- ArticlesRepository.findPublished (src/unnamed/part_004 lines 252-318):
filter, order newest first, page with skip/take, and report the total with
`totalPages = Math.ceil(total / size)` (for the DTO-enforced size ≥ 1 the
Nat formula below is that ceiling). -/
def ArticlesRepository.findPublished (s : Store)
    (opts : FindPublishedArticlesOptions) : PaginatedResult FeedItem :=
  let matching := sortByCreatedAtDesc (s.articles.filter (findPublishedPred s opts))
  let total := matching.length
  let pageItems := (matching.drop ((opts.page - 1) * opts.size)).take opts.size
  { items := pageItems.map (fun a => ⟨a, authorPublicOf s a.authorId⟩)
    total := total
    page := opts.page
    size := opts.size
    totalPages := (total + opts.size - 1) / opts.size }

/-! ## Articles service (embedded after the DTO in
src/backend/src/modules/articles/dto/update-article.dto.ts) -/

/-- Error body of the articles module ApiResponse shape on failure: Success
flag, human-readable message, null Object, and the list of error strings. -/
structure ArticlesErrorResponse where
  Success : Bool
  Message : String
  Errors : List String
deriving DecidableEq, Repr

/-- Outcome of an articles service call: the success message and Object, or
the thrown exception with its HTTP status and body. -/
inductive SvcResult (α : Type) where
  | ok (message : String) (object : α)
  | err (status : Nat) (body : ArticlesErrorResponse)
deriving DecidableEq, Repr

/-- The 404 NotFoundException body built from ARTICLE_NOT_FOUND_MESSAGE. -/
def articleNotFoundBody : ArticlesErrorResponse :=
  ⟨false, "Article not found.", ["Article not found."]⟩

/-- The 403 ForbiddenException body built from FORBIDDEN_MESSAGE. -/
def articleForbiddenBody : ArticlesErrorResponse :=
  ⟨false, "Forbidden", ["Forbidden"]⟩

/-- The 500 body for unexpected failures inside ArticlesService.update. -/
def articleUpdateErrorBody : ArticlesErrorResponse :=
  ⟨false, "Unable to update article at the moment. Please try again later.",
    ["Unable to update article at the moment. Please try again later."]⟩

/-- The 500 body for unexpected failures inside ArticlesService.remove. -/
def articleDeleteErrorBody : ArticlesErrorResponse :=
  ⟨false, "Unable to delete article at the moment. Please try again later.",
    ["Unable to delete article at the moment. Please try again later."]⟩

/-- mapToResponseData: the service response carries exactly the eight
columns of the article row (id, title, content, category, status, authorId,
createdAt, deletedAt) and drops the joined author object. -/
def mapToResponseData (x : ArticleWithAuthorFull) : Article :=
  x.article

/-- ArticlesService.findAllByAuthor: wraps the repository default
findByAuthor call (soft-deleted rows excluded). -/
def ArticlesService.findAllByAuthor (s : Store) (authorId : String) :
    SvcResult (List Article) :=
  .ok "Articles retrieved successfully."
    (ArticlesRepository.findByAuthor s authorId false)

/-- ArticlesService.findOne (service lines 170-201): default findById (so a
soft-deleted row reads as absent), not-found first, then the ownership
check. -/
def ArticlesService.findOne (s : Store) (articleId requestingAuthorId : String) :
    SvcResult Article :=
  match ArticlesRepository.findById s articleId {} with
  | none => .err 404 articleNotFoundBody
  | some item =>
    if item.article.authorId ≠ requestingAuthorId then
      .err 403 articleForbiddenBody
    else
      .ok "Article retrieved successfully." (mapToResponseData item)

/-- ArticlesService.update (service lines 207-261): the same not-found and
ownership checks, then the repository update with exactly the four payload
fields; a repository failure maps to the 500 body. Returns the resulting
store (unchanged on failure). -/
def ArticlesService.update (s : Store) (articleId requestingAuthorId : String)
    (payload : UpdateArticleData) : SvcResult Article × Store :=
  match ArticlesRepository.findById s articleId {} with
  | none => (.err 404 articleNotFoundBody, s)
  | some item =>
    if item.article.authorId ≠ requestingAuthorId then
      (.err 403 articleForbiddenBody, s)
    else
      match ArticlesRepository.update s articleId payload with
      | .ok (a', s') => (.ok "Article updated successfully." a', s')
      | .error _ => (.err 500 articleUpdateErrorBody, s)

/-- ArticlesService.remove (service lines 267-315): the same not-found and
ownership checks, then the repository softDelete; a repository failure maps
to the 500 body. Returns the resulting store (unchanged on failure). -/
def ArticlesService.remove (s : Store) (articleId requestingAuthorId : String)
    (now : Nat) : SvcResult Unit × Store :=
  match ArticlesRepository.findById s articleId {} with
  | none => (.err 404 articleNotFoundBody, s)
  | some item =>
    if item.article.authorId ≠ requestingAuthorId then
      (.err 403 articleForbiddenBody, s)
    else
      match ArticlesRepository.softDelete s articleId now with
      | .ok (_, s') => (.ok "Article deleted successfully." (), s')
      | .error _ => (.err 500 articleDeleteErrorBody, s)

/-! ## Concrete fixtures used to instantiate the theorems -/

/-- Replace the email of the user with the given id, leaving every other
field and every other user unchanged (used to state that the public feed is
insensitive to author email addresses). -/
def setUserEmail (targetId newEmail : String) (u : User) : User :=
  if u.id = targetId then { u with email := newEmail } else u

/-- Demo author John (id u1). -/
def demoAuthorJohn : User :=
  ⟨"u1", "John", "john@example.com", bcryptHash "RightPass1x" 12, UserRole.AUTHOR⟩

/-- Demo author Joanna (id u2). -/
def demoAuthorJoanna : User :=
  ⟨"u2", "Joanna", "joanna@example.com", bcryptHash "JoPassw0rdx" 12, UserRole.AUTHOR⟩

/-- Live published article owned by u1. -/
def demoArticleLive : Article :=
  ⟨"a1", "NestJS Guide", "body one", "Tech", ArticleStatus.Published, "u1", 10, none⟩

/-- Soft-deleted published article owned by u2. -/
def demoArticleDeleted : Article :=
  ⟨"a2", "Removed Piece", "body two", "Tech", ArticleStatus.Published, "u2", 20, some 99⟩

/-- Draft article owned by u2. -/
def demoArticleDraft : Article :=
  ⟨"a3", "Draft Notes", "body three", "Life", ArticleStatus.Draft, "u2", 30, none⟩

/-- Demo store with two authors and three articles. -/
def demoStore : Store :=
  ⟨[demoAuthorJohn, demoAuthorJoanna],
    [demoArticleLive, demoArticleDeleted, demoArticleDraft]⟩

/-- Demo store that already contains the signup email jane@example.com. -/
def demoStoreWithJane : Store :=
  ⟨[⟨"u3", "Jane Doe", "jane@example.com", bcryptHash "JanePass1x" 12,
      UserRole.READER⟩], []⟩

/-- Validated signup payload for jane@example.com (role already normalized
by the DTO transform). -/
def demoSignupJane : SignupData :=
  ⟨"Jane Doe", "jane@example.com", "StrongPass1x", "Author"⟩

/-- Published feed article number i for the pagination fixture. -/
def feedArticle (i : Nat) : Article :=
  ⟨"f" ++ toString i, "Feed Title", "feed body", "Tech",
    ArticleStatus.Published, "u1", i, none⟩

/-- Store with 25 published, non-deleted articles (pagination fixture). -/
def demoFeedStore : Store :=
  ⟨[demoAuthorJohn], (List.range 25).map feedArticle⟩

/-! ## Helper lemmas -/

theorem mem_insertByCreatedAtDesc {a b : Article} {l : List Article} :
    b ∈ insertByCreatedAtDesc a l ↔ b = a ∨ b ∈ l := by
  induction l with
  | nil => simp [insertByCreatedAtDesc]
  | cons c rest ih =>
    simp only [insertByCreatedAtDesc]
    split
    · simp [List.mem_cons]
    · simp only [List.mem_cons, ih]
      tauto

theorem mem_sortByCreatedAtDesc {b : Article} {l : List Article} :
    b ∈ sortByCreatedAtDesc l ↔ b ∈ l := by
  induction l with
  | nil => simp [sortByCreatedAtDesc]
  | cons a rest ih =>
    simp [sortByCreatedAtDesc, mem_insertByCreatedAtDesc, ih]

/-- With pairwise-distinct ids (the primary-key invariant of the store), the
repository lookup by id finds exactly the known matching row. -/
theorem find?_id_eq_of_nodup {l : List Article} {a : Article} {id : String}
    (hnd : (l.map Article.id).Nodup) (ha : a ∈ l) (hid : a.id = id) :
    l.find? (fun b => decide (b.id = id)) = some a := by
  induction l with
  | nil => cases ha
  | cons c rest ih =>
    rw [List.map_cons, List.nodup_cons] at hnd
    rcases List.mem_cons.mp ha with rfl | hmem
    · simp [List.find?_cons, hid]
    · have hc : ¬(c.id = id) := by
        intro h
        exact hnd.1 (List.mem_map.mpr ⟨a, hmem, by rw [hid, h]⟩)
      simp [List.find?_cons, hc, ih hnd.2 hmem]

theorem setUserEmail_id (targetId newEmail : String) (u : User) :
    (setUserEmail targetId newEmail u).id = u.id := by
  unfold setUserEmail
  split <;> rfl

theorem setUserEmail_name (targetId newEmail : String) (u : User) :
    (setUserEmail targetId newEmail u).name = u.name := by
  unfold setUserEmail
  split <;> rfl

theorem setUserEmail_role (targetId newEmail : String) (u : User) :
    (setUserEmail targetId newEmail u).role = u.role := by
  unfold setUserEmail
  split <;> rfl

theorem find?_users_map_setUserEmail (l : List User) (targetId newEmail x : String) :
    (l.map (setUserEmail targetId newEmail)).find? (fun u => decide (u.id = x))
      = (l.find? (fun u => decide (u.id = x))).map (setUserEmail targetId newEmail) := by
  rw [List.find?_map]
  have hfn : ((fun u => decide (u.id = x)) ∘ setUserEmail targetId newEmail)
      = (fun u => decide (u.id = x)) := by
    funext u
    simp [Function.comp, setUserEmail_id]
  rw [hfn]

theorem findPublishedPred_setUserEmail (s : Store) (targetId newEmail : String)
    (opts : FindPublishedArticlesOptions) (a : Article) :
    findPublishedPred { s with users := s.users.map (setUserEmail targetId newEmail) } opts a
      = findPublishedPred s opts a := by
  unfold findPublishedPred
  simp only [find?_users_map_setUserEmail]
  rcases opts.author with _ | f
  · rfl
  · by_cases hf : f.isEmpty
    · simp [hf]
    · cases hfind : s.users.find? (fun u => decide (u.id = a.authorId)) with
      | none => simp [hf, hfind]
      | some u => simp [hf, hfind, setUserEmail_name]

theorem authorPublicOf_setUserEmail (s : Store) (targetId newEmail x : String) :
    authorPublicOf { s with users := s.users.map (setUserEmail targetId newEmail) } x
      = authorPublicOf s x := by
  unfold authorPublicOf
  simp only [find?_users_map_setUserEmail]
  cases s.users.find? (fun u => decide (u.id = x)) with
  | none => rfl
  | some u => simp [setUserEmail_id, setUserEmail_name, setUserEmail_role]

/-- The integer formula used by findPublished is the mathematical ceiling of
the division for positive page sizes. -/
theorem ceilFormula (t n : Nat) (hn : 0 < n) :
    (t + n - 1) / n = ⌈(t : ℚ) / (n : ℚ)⌉₊ := by
  rcases Nat.eq_zero_or_pos t with rfl | ht
  · rw [Nat.zero_add, Nat.div_eq_of_lt (by omega), Nat.cast_zero, zero_div,
      Nat.ceil_zero]
  · have hq1 : 0 < (t + n - 1) / n := Nat.div_pos (by omega) hn
    have hub : t ≤ ((t + n - 1) / n) * n := by
      have h := (Nat.div_lt_iff_lt_mul hn).mp
        (Nat.lt_succ_self ((t + n - 1) / n))
      have h' : t + n - 1 < ((t + n - 1) / n) * n + n := by
        calc t + n - 1 < ((t + n - 1) / n + 1) * n := h
        _ = ((t + n - 1) / n) * n + n := by ring
      omega
    have hlb : ((t + n - 1) / n - 1) * n < t := by
      have h := Nat.div_mul_le_self (t + n - 1) n
      have heq : ((t + n - 1) / n - 1) * n = ((t + n - 1) / n) * n - n := by
        rw [Nat.sub_mul, one_mul]
      omega
    symm
    rw [Nat.ceil_eq_iff (by omega)]
    have hnq : (0 : ℚ) < (n : ℚ) := by exact_mod_cast hn
    constructor
    · rw [lt_div_iff₀ hnq]
      exact_mod_cast hlb
    · rw [div_le_iff₀ hnq]
      exact_mod_cast hub

/-! ## Claim theorems -/

/-- C1: the claim states that a validated signup requesting the author role
is persisted as AUTHOR and one requesting the reader role as READER. The
code violates the author half: the DTO transform normalizes the raw role to
the capitalized Author, the IsIn check accepts it, and
mapSignupRoleToPrismaRole then compares that normalized value against the
lowercase literal author, which never matches, so the user is persisted as
READER; a full signup run with the normalized author payload persists a
READER row. Reader requests are persisted as READER as claimed. -/
theorem c1_signup_role_mapping_bug :
    signupRoleAccepted "author" = true
    ∧ normalizeRole "author" = "Author"
    ∧ signupStoredRole "author" = UserRole.READER
    ∧ signupRoleAccepted "reader" = true
    ∧ signupStoredRole "reader" = UserRole.READER
    ∧ (AuthService.signup ⟨[], []⟩ ⟨[], []⟩ "u9" none demoSignupJane).2.users.map
        User.role = [UserRole.READER] :=
  ⟨by decide, by decide, by decide, by decide, by decide, by decide⟩

/-- C2: existence precedes ownership in findOne, update, and remove: when no
non-deleted row with the id exists (also when the id names another authors
soft-deleted row) all three return the 404 not-found body; the 403 forbidden
body is returned exactly when a non-deleted row with the id exists whose
authorId differs from the requester; and a row found by the default lookup
always matches the id, is non-deleted, and belongs to the store. -/
theorem c2_not_found_precedes_forbidden (s : Store) (id req : String)
    (p : UpdateArticleData) (now : Nat) :
    ((∀ a ∈ s.articles, a.id = id → a.deletedAt ≠ none) →
      ArticlesService.findOne s id req = .err 404 articleNotFoundBody
      ∧ (ArticlesService.update s id req p).1 = .err 404 articleNotFoundBody
      ∧ (ArticlesService.remove s id req now).1 = .err 404 articleNotFoundBody)
    ∧ (ArticlesService.findOne s id req = .err 403 articleForbiddenBody ↔
        ∃ item, ArticlesRepository.findById s id {} = some item
          ∧ item.article.authorId ≠ req)
    ∧ ((ArticlesService.update s id req p).1 = .err 403 articleForbiddenBody ↔
        ∃ item, ArticlesRepository.findById s id {} = some item
          ∧ item.article.authorId ≠ req)
    ∧ ((ArticlesService.remove s id req now).1 = .err 403 articleForbiddenBody ↔
        ∃ item, ArticlesRepository.findById s id {} = some item
          ∧ item.article.authorId ≠ req)
    ∧ (∀ item, ArticlesRepository.findById s id {} = some item →
        item.article.id = id ∧ item.article.deletedAt = none
          ∧ item.article ∈ s.articles) := by
  have hnone : (∀ a ∈ s.articles, a.id = id → a.deletedAt ≠ none) →
      ArticlesRepository.findById s id {} = none := by
    intro h
    have hf : s.articles.find? (findByIdPred id {}) = none := by
      rw [List.find?_eq_none]
      intro a ha hpred
      simp only [findByIdPred, strFilterActive, Bool.false_or, if_false,
        Bool.and_eq_true, decide_eq_true_eq, Option.isNone_iff_eq_none] at hpred
      exact h a ha hpred.1.1 hpred.2
    unfold ArticlesRepository.findById
    rw [hf]
    rfl
  have hsome : ∀ item, ArticlesRepository.findById s id {} = some item →
      item.article.id = id ∧ item.article.deletedAt = none
        ∧ item.article ∈ s.articles := by
    intro item hitem
    unfold ArticlesRepository.findById at hitem
    cases hf : s.articles.find? (findByIdPred id {}) with
    | none => rw [hf] at hitem; cases hitem
    | some a =>
      rw [hf] at hitem
      have hpred := List.find?_some hf
      have hmem := List.mem_of_find?_eq_some hf
      simp only [findByIdPred, strFilterActive, Bool.false_or, if_false,
        Bool.and_eq_true, decide_eq_true_eq, Option.isNone_iff_eq_none] at hpred
      cases hitem
      exact ⟨hpred.1.1, hpred.2, hmem⟩
  refine ⟨?_, ?_, ?_, ?_, hsome⟩
  · intro h
    have hn := hnone h
    exact ⟨by simp [ArticlesService.findOne, hn],
      by simp [ArticlesService.update, hn],
      by simp [ArticlesService.remove, hn]⟩
  · cases hcase : ArticlesRepository.findById s id {} with
    | none => simp [ArticlesService.findOne, hcase]
    | some item =>
      by_cases hown : item.article.authorId = req
      · simp [ArticlesService.findOne, hcase, hown]
      · simp only [ArticlesService.findOne, hcase, ne_eq, hown, not_false_iff,
          if_true]
        constructor
        · intro _
          exact ⟨item, rfl, hown⟩
        · intro _
          trivial
  · cases hcase : ArticlesRepository.findById s id {} with
    | none => simp [ArticlesService.update, hcase]
    | some item =>
      by_cases hown : item.article.authorId = req
      · cases hrepo : ArticlesRepository.update s id p with
        | ok v =>
          simp [ArticlesService.update, hcase, hown, hrepo]
        | error e =>
          simp [ArticlesService.update, hcase, hown, hrepo]
      · simp only [ArticlesService.update, hcase, ne_eq, hown, not_false_iff,
          if_true]
        constructor
        · intro _
          exact ⟨item, rfl, hown⟩
        · intro _
          trivial
  · cases hcase : ArticlesRepository.findById s id {} with
    | none => simp [ArticlesService.remove, hcase]
    | some item =>
      by_cases hown : item.article.authorId = req
      · cases hrepo : ArticlesRepository.softDelete s id now with
        | ok v =>
          simp [ArticlesService.remove, hcase, hown, hrepo]
        | error e =>
          simp [ArticlesService.remove, hcase, hown, hrepo]
      · simp only [ArticlesService.remove, hcase, ne_eq, hown, not_false_iff,
          if_true]
        constructor
        · intro _
          exact ⟨item, rfl, hown⟩
        · intro _
          trivial

/-- C2 witness: in the demo store the id a2 names a soft-deleted article of
author u2; a request by u1 (and by u2) for it yields 404 on all three
operations, not 403. -/
theorem c2_not_found_precedes_forbidden_witness :
    (∀ a ∈ demoStore.articles, a.id = "a2" → a.deletedAt ≠ none)
    ∧ ArticlesService.findOne demoStore "a2" "u1" = .err 404 articleNotFoundBody
    ∧ (ArticlesService.update demoStore "a2" "u1" {}).1 = .err 404 articleNotFoundBody
    ∧ (ArticlesService.remove demoStore "a2" "u1" 50).1 = .err 404 articleNotFoundBody := by
  have h := (c2_not_found_precedes_forbidden demoStore "a2" "u1" {} 50).1 (by decide)
  exact ⟨by decide, h.1, h.2.1, h.2.2⟩

/-- C4: login with an unknown email and login with a known email whose hash
comparison fails produce the same 401 response carrying the single generic
invalid-credentials body. -/
theorem c4_login_indistinguishable (s : Store) (e1 p1 e2 p2 : String)
    (u : User)
    (h1 : findUserByEmail s e1 = none)
    (h2 : findUserByEmail s e2 = some u)
    (h3 : bcryptCompare p2 u.password = false) :
    AuthService.login s e1 p1 = .err invalidCredentialsError
    ∧ AuthService.login s e2 p2 = .err invalidCredentialsError := by
  constructor
  · simp [AuthService.login, h1]
  · simp [AuthService.login, h2, h3]

/-- C4 witness: in the demo store an unknown email and a wrong password for
a known email both yield the same invalid-credentials error. -/
theorem c4_login_indistinguishable_witness :
    AuthService.login demoStore "ghost@example.com" "Whatever1x"
      = .err invalidCredentialsError
    ∧ AuthService.login demoStore "john@example.com" "WrongPass1x"
      = .err invalidCredentialsError :=
  c4_login_indistinguishable demoStore "ghost@example.com" "Whatever1x"
    "john@example.com" "WrongPass1x" demoAuthorJohn
    (by decide) (by decide) (by decide)

/-- C3: an article whose deletedAt is non-null is absent from the default
findByAuthor listing (and hence from the service findAllByAuthor result),
is never the row returned by the default findById lookup, is never the
Object of a successful findOne, and never appears among the public feed
items, for every filter combination and regardless of its status. -/
theorem c3_soft_deleted_hidden (s : Store) (x : Article)
    (aid id req msg : String) (opts : FindPublishedArticlesOptions)
    (hdel : x.deletedAt ≠ none) :
    x ∉ ArticlesRepository.findByAuthor s aid false
    ∧ (∀ m l, ArticlesService.findAllByAuthor s aid = .ok m l → x ∉ l)
    ∧ (∀ item, ArticlesRepository.findById s id {} = some item →
        item.article ≠ x)
    ∧ ArticlesService.findOne s id req ≠ .ok msg x
    ∧ (∀ item ∈ (ArticlesRepository.findPublished s opts).items,
        item.article ≠ x) := by
  have hbyAuthor : x ∉ ArticlesRepository.findByAuthor s aid false := by
    intro hmem
    unfold ArticlesRepository.findByAuthor at hmem
    rw [mem_sortByCreatedAtDesc] at hmem
    have hpred := (List.mem_filter.mp hmem).2
    simp only [Bool.false_or, Bool.and_eq_true, Option.isNone_iff_eq_none] at hpred
    exact hdel hpred.2
  have hById : ∀ item, ArticlesRepository.findById s id {} = some item →
      item.article ≠ x := by
    intro item hitem heq
    unfold ArticlesRepository.findById at hitem
    cases hf : s.articles.find? (findByIdPred id {}) with
    | none => rw [hf] at hitem; cases hitem
    | some a =>
      rw [hf] at hitem
      have hpred := List.find?_some hf
      simp only [findByIdPred, strFilterActive, Bool.false_or, if_false,
        Bool.and_eq_true, decide_eq_true_eq, Option.isNone_iff_eq_none] at hpred
      cases hitem
      exact hdel (heq ▸ hpred.2)
  refine ⟨hbyAuthor, ?_, hById, ?_, ?_⟩
  · intro m l hok
    unfold ArticlesService.findAllByAuthor at hok
    cases hok
    exact hbyAuthor
  · intro hok
    cases hcase : ArticlesRepository.findById s id {} with
    | none => simp [ArticlesService.findOne, hcase] at hok
    | some item =>
      by_cases hown : item.article.authorId ≠ req
      · simp [ArticlesService.findOne, hcase, hown] at hok
      · simp [ArticlesService.findOne, hcase, hown, mapToResponseData] at hok
        exact hById item hcase hok.2
  · intro item hmem heq
    unfold ArticlesRepository.findPublished at hmem
    simp only [List.mem_map] at hmem
    obtain ⟨a, ha, hitem⟩ := hmem
    have hmem2 : a ∈ sortByCreatedAtDesc (s.articles.filter (findPublishedPred s opts)) :=
      List.mem_of_mem_drop (List.mem_of_mem_take ha)
    rw [mem_sortByCreatedAtDesc] at hmem2
    have hpred := (List.mem_filter.mp hmem2).2
    simp only [findPublishedPred, Bool.and_eq_true, decide_eq_true_eq,
      Option.isNone_iff_eq_none] at hpred
    have harticle : item.article = a := by rw [← hitem]
    exact hdel (heq ▸ harticle ▸ hpred.1.1.1.2)

/-- C3 witness: the soft-deleted published article a2 of the demo store is
invisible to the default author listing, the default lookup, findOne, and
the public feed. -/
theorem c3_soft_deleted_hidden_witness :
    demoArticleDeleted.deletedAt ≠ none
    ∧ demoArticleDeleted ∉ ArticlesRepository.findByAuthor demoStore "u2" false
    ∧ (∀ item ∈ (ArticlesRepository.findPublished demoStore
        ⟨none, none, none, 1, 10⟩).items, item.article ≠ demoArticleDeleted) := by
  have h := c3_soft_deleted_hidden demoStore demoArticleDeleted "u2" "a2" "u2"
    "m" ⟨none, none, none, 1, 10⟩ (by decide)
  exact ⟨by decide, h.1, h.2.2.2.2⟩

/-- C5: a signup whose email is not registered succeeds; the persisted row
carries the bcrypt hash of the plaintext (which verifies against it and
differs from it), the response carries exactly the public fields id, name,
email, and role of the created row (a shape with no password field), and
the response is unchanged if the signup is repeated with any other
password, so neither plaintext nor hash is observable in the response. -/
theorem c5_signup_password_handling (s : Store) (newId : String)
    (payload : SignupData) (p2 : String)
    (h : findUserByEmail s payload.email = none) :
    ∃ u s',
      AuthService.signup s s newId none payload
        = (.ok ⟨u.id, u.name, u.email, mapPrismaRoleToApiRole u.role⟩, s')
      ∧ s'.users = s.users ++ [u]
      ∧ u.password = bcryptHash payload.password 12
      ∧ bcryptCompare payload.password u.password = true
      ∧ u.password ≠ payload.password
      ∧ (AuthService.signup s s newId none payload).1
          = (AuthService.signup s s newId none
              { payload with password := p2 }).1 := by
  have hany : ∀ t : String, s.users.any (fun u => decide (u.email = t)) = true →
      t ≠ payload.email := by
    intro t ht heq
    obtain ⟨u, hu, hp⟩ := List.any_eq_true.mp ht
    have := List.find?_eq_none.mp h u hu
    rw [heq] at hp
    exact this hp
  have hany2 : s.users.any (fun u => decide (u.email = payload.email)) = false := by
    cases hb : s.users.any (fun u => decide (u.email = payload.email)) with
    | false => rfl
    | true => exact absurd rfl (hany payload.email hb)
  have hrun : ∀ pw : String,
      AuthService.signup s s newId none { payload with password := pw }
      = (.ok ⟨newId, payload.name, payload.email,
            mapPrismaRoleToApiRole (mapSignupRoleToPrismaRole payload.role)⟩,
        { s with users := s.users ++ [⟨newId, payload.name, payload.email,
            bcryptHash pw 12, mapSignupRoleToPrismaRole payload.role⟩] }) := by
    intro pw
    unfold AuthService.signup dbCreateUser
    rw [h]
    simp [hany2]
  have hpay : payload = { payload with password := payload.password } := rfl
  refine ⟨⟨newId, payload.name, payload.email, bcryptHash payload.password 12,
      mapSignupRoleToPrismaRole payload.role⟩, _,
    by rw [hpay]; exact hrun payload.password, rfl, rfl, ?_, ?_, ?_⟩
  · simp [bcryptCompare]
  · intro heq
    have hlen := congrArg String.length heq
    rw [bcryptHash, String.length_append] at hlen
    have h7 : ("$2b$" ++ toString 12 ++ "$").length = 7 := by decide
    omega
  · rw [hpay, hrun payload.password, hrun p2]

/-- C5 witness: signing up jane@example.com against the demo store persists
a verifying hash and returns the password-free public fields. -/
theorem c5_signup_password_handling_witness :
    findUserByEmail demoStore "jane@example.com" = none
    ∧ ∃ u s',
      AuthService.signup demoStore demoStore "u9" none demoSignupJane
        = (.ok ⟨u.id, u.name, u.email, mapPrismaRoleToApiRole u.role⟩, s')
      ∧ s'.users = demoStore.users ++ [u]
      ∧ u.password = bcryptHash demoSignupJane.password 12
      ∧ bcryptCompare demoSignupJane.password u.password = true
      ∧ u.password ≠ demoSignupJane.password
      ∧ (AuthService.signup demoStore demoStore "u9" none demoSignupJane).1
          = (AuthService.signup demoStore demoStore "u9" none
              { demoSignupJane with password := "OtherPass9x" }).1 :=
  ⟨by decide, c5_signup_password_handling demoStore "u9" demoSignupJane
    "OtherPass9x" (by decide)⟩

/-- C6: a store-level unique-constraint violation during the insert (a
duplicate row that appeared after the pre-check, or any injected failure
carrying the Prisma code P2002) is mapped to the very same 409 conflict
response value as the pre-check path, while an insert failure with any
other code is mapped to the 500 internal-error response. -/
theorem c6_unique_violation_conflict (sCheck sInsert sCheck2 : Store)
    (newId : String) (payload : SignupData) (e : DbError) :
    (findUserByEmail sCheck payload.email = none →
      sInsert.users.any (fun u => decide (u.email = payload.email)) = true →
      (AuthService.signup sCheck sInsert newId none payload).1
        = .err emailConflictError)
    ∧ ((findUserByEmail sCheck2 payload.email).isSome = true →
      (AuthService.signup sCheck2 sInsert newId none payload).1
        = .err emailConflictError)
    ∧ (findUserByEmail sCheck payload.email = none → e.code ≠ some "P2002" →
      (AuthService.signup sCheck sInsert newId (some e) payload).1
        = .err signupInternalError) := by
  refine ⟨?_, ?_, ?_⟩
  · intro h hdup
    unfold AuthService.signup dbCreateUser
    rw [h]
    simp [hdup, AuthService.isUniqueConstraintViolation]
  · intro h
    simp [AuthService.signup, h]
  · intro h hcode
    unfold AuthService.signup dbCreateUser
    rw [h]
    have hbeq : (e.code == some "P2002") = false := by
      cases hb : e.code == some "P2002" with
      | false => rfl
      | true => exact absurd (eq_of_beq hb) hcode
    simp [AuthService.isUniqueConstraintViolation, hbeq]

/-- C6 witness: a pre-check pass against a store lacking the email followed
by an insert against a store already holding it yields the same conflict
value as the ordinary duplicate path, and an injected non-P2002 failure
yields the internal error. -/
theorem c6_unique_violation_conflict_witness :
    (AuthService.signup demoStore demoStoreWithJane "u9" none demoSignupJane).1
      = .err emailConflictError
    ∧ (AuthService.signup demoStoreWithJane demoStoreWithJane "u9" none
        demoSignupJane).1 = .err emailConflictError
    ∧ (AuthService.signup demoStore demoStore "u9" (some ⟨some "ECONN"⟩)
        demoSignupJane).1 = .err signupInternalError := by
  have h1 := c6_unique_violation_conflict demoStore demoStoreWithJane
    demoStoreWithJane "u9" demoSignupJane ⟨some "ECONN"⟩
  have h2 := c6_unique_violation_conflict demoStore demoStore
    demoStoreWithJane "u9" demoSignupJane ⟨some "ECONN"⟩
  exact ⟨h1.1 (by decide) (by decide), h1.2.1 (by decide),
    h2.2.2 (by decide) (by decide)⟩

/-- C7: every item of the public feed is published and non-deleted; a truthy
category filter forces an exact category match, a truthy author filter
forces a case-insensitive partial match on the joined author name, and a
truthy title search forces a case-insensitive partial title match; since
the published restriction holds for every filter combination, drafts never
appear even with no filters supplied. -/
theorem c7_feed_filters (s : Store) (opts : FindPublishedArticlesOptions)
    (item : FeedItem)
    (hmem : item ∈ (ArticlesRepository.findPublished s opts).items) :
    item.article.status = ArticleStatus.Published
    ∧ item.article.deletedAt = none
    ∧ (∀ c, opts.category = some c → ¬c.isEmpty → item.article.category = c)
    ∧ (∀ f, opts.author = some f → ¬f.isEmpty →
        ∃ u, s.users.find? (fun v => decide (v.id = item.article.authorId)) = some u
          ∧ containsInsensitive u.name f = true)
    ∧ (∀ q, opts.search = some q → ¬q.isEmpty →
        containsInsensitive item.article.title q = true) := by
  unfold ArticlesRepository.findPublished at hmem
  simp only [List.mem_map] at hmem
  obtain ⟨a, ha, hitem⟩ := hmem
  have hmem2 : a ∈ sortByCreatedAtDesc (s.articles.filter (findPublishedPred s opts)) :=
    List.mem_of_mem_drop (List.mem_of_mem_take ha)
  rw [mem_sortByCreatedAtDesc] at hmem2
  have hpred := (List.mem_filter.mp hmem2).2
  have harticle : item.article = a := by rw [← hitem]
  unfold findPublishedPred at hpred
  simp only [Bool.and_eq_true, decide_eq_true_eq, Option.isNone_iff_eq_none] at hpred
  obtain ⟨⟨⟨⟨h1, h2⟩, h3⟩, h4⟩, h5⟩ := hpred
  rw [harticle]
  refine ⟨h1, h2, ?_, ?_, ?_⟩
  · intro c hc hce
    have hcf : c.isEmpty = false := Bool.eq_false_iff.mpr hce
    rw [hc] at h3
    simp only [strFilterActive, hcf, Bool.not_false, if_true,
      decide_eq_true_eq, Option.some.injEq] at h3
    exact h3
  · intro f hf hfe
    have hff : f.isEmpty = false := Bool.eq_false_iff.mpr hfe
    rw [hf] at h4
    simp only [hff, Bool.false_eq_true, if_false] at h4
    cases hfind : s.users.find? (fun v => decide (v.id = a.authorId)) with
    | none => rw [hfind] at h4; cases h4
    | some u =>
      rw [hfind] at h4
      exact ⟨u, rfl, h4⟩
  · intro q hq hqe
    have hqf : q.isEmpty = false := Bool.eq_false_iff.mpr hqe
    rw [hq] at h5
    simp only [hqf, Bool.false_eq_true, if_false] at h5
    exact h5

/-- C7 witness: with category Tech, author filter jo, and title search nest,
the demo feed returns the live article of John; the draft and the deleted
article are absent, the category matches exactly, and both partial matches
hold case-insensitively. -/
theorem c7_feed_filters_witness :
    ((⟨demoArticleLive, some ⟨"u1", "John", UserRole.AUTHOR⟩⟩ : FeedItem)
        ∈ (ArticlesRepository.findPublished demoStore
            ⟨some "Tech", some "jo", some "nest", 1, 10⟩).items)
    ∧ demoArticleLive.status = ArticleStatus.Published
    ∧ demoArticleLive.deletedAt = none
    ∧ demoArticleLive.category = "Tech"
    ∧ (∃ u, demoStore.users.find?
          (fun v => decide (v.id = demoArticleLive.authorId)) = some u
        ∧ containsInsensitive u.name "jo" = true)
    ∧ containsInsensitive demoArticleLive.title "nest" = true := by
  have h := c7_feed_filters demoStore ⟨some "Tech", some "jo", some "nest", 1, 10⟩
    ⟨demoArticleLive, some ⟨"u1", "John", UserRole.AUTHOR⟩⟩ (by decide)
  exact ⟨by decide, h.1, h.2.1, h.2.2.1 "Tech" rfl (by decide),
    h.2.2.2.1 "jo" rfl (by decide), h.2.2.2.2 "nest" rfl (by decide)⟩

/-- C8: updating an existing non-deleted owned article succeeds and changes
exactly the provided fields: each present payload field is written, each
absent one keeps its old value, and id, authorId, createdAt, and deletedAt
are never modified (ownership is immutable); rows with other ids survive
unchanged. The Nodup hypothesis is the primary-key uniqueness of article
ids that the relational store guarantees. -/
theorem c8_update_frame (s : Store) (id req : String)
    (payload : UpdateArticleData) (item : ArticleWithAuthorFull)
    (hnd : (s.articles.map Article.id).Nodup)
    (hfound : ArticlesRepository.findById s id {} = some item)
    (howner : item.article.authorId = req) :
    ∃ a',
      (ArticlesService.update s id req payload).1
        = .ok "Article updated successfully." a'
      ∧ a'.id = item.article.id
      ∧ a'.authorId = item.article.authorId
      ∧ a'.createdAt = item.article.createdAt
      ∧ a'.deletedAt = item.article.deletedAt
      ∧ a'.title = payload.title.getD item.article.title
      ∧ a'.content = payload.content.getD item.article.content
      ∧ a'.category = payload.category.getD item.article.category
      ∧ a'.status = payload.status.getD item.article.status
      ∧ (∀ b ∈ s.articles, b.id ≠ id →
          b ∈ (ArticlesService.update s id req payload).2.articles) := by
  have hfacts : item.article.id = id ∧ item.article ∈ s.articles := by
    unfold ArticlesRepository.findById at hfound
    cases hf : s.articles.find? (findByIdPred id {}) with
    | none => rw [hf] at hfound; cases hfound
    | some a =>
      rw [hf] at hfound
      have hpred := List.find?_some hf
      have hmem := List.mem_of_find?_eq_some hf
      simp only [findByIdPred, strFilterActive, Bool.false_or, if_false,
        Bool.and_eq_true, decide_eq_true_eq] at hpred
      cases hfound
      exact ⟨hpred.1.1, hmem⟩
  obtain ⟨hid, hmem⟩ := hfacts
  have hfindrepo : s.articles.find? (fun b => decide (b.id = id)) = some item.article :=
    find?_id_eq_of_nodup hnd hmem hid
  have hrepo : ArticlesRepository.update s id payload
      = .ok (applyUpdate payload item.article,
          { s with articles := s.articles.map (fun b =>
              if b.id = id then applyUpdate payload b else b) }) := by
    unfold ArticlesRepository.update
    rw [hfindrepo]
  have hsvc : ArticlesService.update s id req payload
      = (.ok "Article updated successfully." (applyUpdate payload item.article),
        { s with articles := s.articles.map (fun b =>
            if b.id = id then applyUpdate payload b else b) }) := by
    unfold ArticlesService.update
    rw [hfound, hrepo]
    simp [howner]
  refine ⟨applyUpdate payload item.article, by rw [hsvc], rfl, rfl, rfl, rfl,
    rfl, rfl, rfl, rfl, ?_⟩
  intro b hb hbne
  rw [hsvc]
  exact List.mem_map.mpr ⟨b, hb, by simp [hbne]⟩

/-- C8 witness: updating the title of the live demo article as its owner
keeps id, authorId, createdAt, deletedAt and the unprovided fields, and
leaves the other rows in place. -/
theorem c8_update_frame_witness :
    ∃ a',
      (ArticlesService.update demoStore "a1" "u1"
          ⟨some "New Title", none, none, none⟩).1
        = .ok "Article updated successfully." a'
      ∧ a'.id = demoArticleLive.id
      ∧ a'.authorId = demoArticleLive.authorId
      ∧ a'.createdAt = demoArticleLive.createdAt
      ∧ a'.deletedAt = demoArticleLive.deletedAt
      ∧ a'.title = (some "New Title").getD demoArticleLive.title
      ∧ a'.content = (none : Option String).getD demoArticleLive.content
      ∧ a'.category = (none : Option String).getD demoArticleLive.category
      ∧ a'.status = (none : Option ArticleStatus).getD demoArticleLive.status
      ∧ (∀ b ∈ demoStore.articles, b.id ≠ "a1" →
          b ∈ (ArticlesService.update demoStore "a1" "u1"
            ⟨some "New Title", none, none, none⟩).2.articles) :=
  c8_update_frame demoStore "a1" "u1" ⟨some "New Title", none, none, none⟩
    ⟨demoArticleLive, some ⟨"u1", "John", "john@example.com", UserRole.AUTHOR⟩⟩
    (by decide) (by decide) (by decide)

/-- C9: for every page size between 1 and 100 and every store (hence every
total count of matching rows), totalPages is the ceiling of total divided
by size, and the returned page and size echo the request. -/
theorem c9_pagination_ceiling (s : Store) (opts : FindPublishedArticlesOptions)
    (h1 : 1 ≤ opts.size) (h2 : opts.size ≤ 100) :
    (ArticlesRepository.findPublished s opts).totalPages
      = ⌈((ArticlesRepository.findPublished s opts).total : ℚ) / (opts.size : ℚ)⌉₊
    ∧ (ArticlesRepository.findPublished s opts).page = opts.page
    ∧ (ArticlesRepository.findPublished s opts).size = opts.size := by
  refine ⟨?_, rfl, rfl⟩
  show ((ArticlesRepository.findPublished s opts).total + opts.size - 1) / opts.size = _
  exact ceilFormula (ArticlesRepository.findPublished s opts).total opts.size (by omega)

/-- C9 witness: the 25-article fixture with size 10 has total 25 and
totalPages 3, echoing page 1 and size 10. -/
theorem c9_pagination_ceiling_witness :
    (ArticlesRepository.findPublished demoFeedStore ⟨none, none, none, 1, 10⟩).total = 25
    ∧ (ArticlesRepository.findPublished demoFeedStore ⟨none, none, none, 1, 10⟩).totalPages = 3
    ∧ (ArticlesRepository.findPublished demoFeedStore ⟨none, none, none, 1, 10⟩).page = 1
    ∧ (ArticlesRepository.findPublished demoFeedStore ⟨none, none, none, 1, 10⟩).size = 10 := by
  have h := c9_pagination_ceiling demoFeedStore ⟨none, none, none, 1, 10⟩
    (by decide) (by decide)
  have ht : (ArticlesRepository.findPublished demoFeedStore
      ⟨none, none, none, 1, 10⟩).total = 25 := by decide
  refine ⟨ht, ?_, h.2.1, h.2.2⟩
  rw [h.1, ht]
  rw [show ((⟨none, none, none, 1, 10⟩ : FindPublishedArticlesOptions).size : ℚ)
    = ((10 : ℕ) : ℚ) from rfl]
  rw [← ceilFormula 25 10 (by omega)]

/-- C10: the public feed output is unchanged when any single author email is
replaced, so feed items reveal no email; each feed item embeds exactly the
id, name, and role of its author row; the owner-facing findById result, in
contrast, embeds the author including the email. -/
theorem c10_feed_email_hidden (s : Store) (targetId newEmail : String)
    (opts : FindPublishedArticlesOptions) :
    ArticlesRepository.findPublished
        { s with users := s.users.map (setUserEmail targetId newEmail) } opts
      = ArticlesRepository.findPublished s opts
    ∧ (∀ item ∈ (ArticlesRepository.findPublished s opts).items, ∀ u,
        s.users.find? (fun v => decide (v.id = item.article.authorId)) = some u →
        item.author = some ⟨u.id, u.name, u.role⟩)
    ∧ (∀ id item u,
        ArticlesRepository.findById s id {} = some item →
        s.users.find? (fun v => decide (v.id = item.article.authorId)) = some u →
        item.author = some ⟨u.id, u.name, u.email, u.role⟩) := by
  refine ⟨?_, ?_, ?_⟩
  · have hfilter : s.articles.filter
        (findPublishedPred
          { s with users := s.users.map (setUserEmail targetId newEmail) } opts)
        = s.articles.filter (findPublishedPred s opts) :=
      List.filter_congr
        (fun a _ => findPublishedPred_setUserEmail s targetId newEmail opts a)
    simp only [ArticlesRepository.findPublished]
    rw [hfilter]
    simp only [authorPublicOf_setUserEmail]
  · intro item hmem u hu
    unfold ArticlesRepository.findPublished at hmem
    simp only [List.mem_map] at hmem
    obtain ⟨a, ha, hitem⟩ := hmem
    rw [← hitem] at hu ⊢
    have hu' : s.users.find? (fun v => decide (v.id = a.authorId)) = some u := hu
    show authorPublicOf s a.authorId = some ⟨u.id, u.name, u.role⟩
    unfold authorPublicOf
    rw [hu']
    rfl
  · intro id item u hitem hu
    unfold ArticlesRepository.findById at hitem
    cases hf : s.articles.find? (findByIdPred id {}) with
    | none => rw [hf] at hitem; cases hitem
    | some a =>
      rw [hf] at hitem
      cases hitem
      have hu' : s.users.find? (fun v => decide (v.id = a.authorId)) = some u := hu
      show authorFullOf s a.authorId = some ⟨u.id, u.name, u.email, u.role⟩
      unfold authorFullOf
      rw [hu']
      rfl

/-- C10 witness: replacing the email of u1 leaves the demo feed unchanged,
the feed item for the live article embeds only id, name, and role of John,
and the owner-facing lookup of a1 embeds John including the email. -/
theorem c10_feed_email_hidden_witness :
    ArticlesRepository.findPublished
        { demoStore with users :=
            demoStore.users.map (setUserEmail "u1" "hidden@example.com") }
        ⟨none, none, none, 1, 10⟩
      = ArticlesRepository.findPublished demoStore ⟨none, none, none, 1, 10⟩
    ∧ (⟨demoArticleLive, some ⟨"u1", "John", UserRole.AUTHOR⟩⟩ : FeedItem).author
        = some ⟨demoAuthorJohn.id, demoAuthorJohn.name, demoAuthorJohn.role⟩
    ∧ (⟨demoArticleLive, some ⟨"u1", "John", "john@example.com",
          UserRole.AUTHOR⟩⟩ : ArticleWithAuthorFull).author
        = some ⟨demoAuthorJohn.id, demoAuthorJohn.name, demoAuthorJohn.email,
            demoAuthorJohn.role⟩ := by
  have h := c10_feed_email_hidden demoStore "u1" "hidden@example.com"
    ⟨none, none, none, 1, 10⟩
  refine ⟨h.1, ?_, ?_⟩
  · exact h.2.1 ⟨demoArticleLive, some ⟨"u1", "John", UserRole.AUTHOR⟩⟩
      (by decide) demoAuthorJohn (by decide)
  · exact h.2.2 "a1"
      ⟨demoArticleLive, some ⟨"u1", "John", "john@example.com", UserRole.AUTHOR⟩⟩
      demoAuthorJohn (by decide) (by decide)

end NewsPlatform
